import Mathlib

/-!
Verification of the HIP (Hawkes Intensity Process) model implementation
in `hip/models.py` (class `TensorHIP`).

The development shallowly embeds the pieces of the implementation that the
verified properties are about:

* the recursive predictor `TensorHIP.predict` (its `tf.while_loop` body,
  the time-decay kernel `time_decay_base`, the windowed endogenous term);
* the multi-restart selection loop `TensorHIP.train`;
* the variable construction with clip constraints
  `TensorHIP._init_tf_model_variables` and its per-restart seeding in
  `TensorHIP._fit`;
* the RMSE evaluators `get_validation_rmse` / `get_test_rmse`;
* the shape-relevant spine of `TensorHIP.__init__`.

Real-valued tensor arithmetic is embedded over `ℝ` (the power kernel uses
`Real.rpow`, mirroring `tf.pow` with a non-integer exponent); all purely
rational/bookkeeping computations (losses, clipping, split indices, RMSE
accumulators) are embedded over `ℚ` so that they evaluate.
-/

namespace HIP

/-- Source constant `RANDOM_SEED = 42` (`hip/models.py`, line 11). -/
def RANDOM_SEED : ℕ := 42

/-- Source constant `MEMORY_WINDOW = 7` (`hip/models.py`, line 14). -/
def MEMORY_WINDOW : ℕ := 7

/-- The model parameter dictionary handed to `TensorHIP.predict`:
`{eta, mu, theta, C, c}`.  `mu` is the vector of exogenous weights.
Note that `c` is carried in the dictionary but never read by `predict`
(the offset `model_params['c']` at `models.py:159` is commented out). -/
structure ModelParams where
  eta : ℝ
  mu : List ℝ
  theta : ℝ
  C : ℝ
  c : ℝ

/-- Embedding of `TensorHIP.time_decay_base` (`models.py:119-129`):
`tf.range(i+1, 1, -1)` for an argument `n` is the vector
`[n+1, n, ..., 2]` (length `n`; empty for `n = 0`).
Element `j` (0-indexed) is `n + 1 - j`. -/
def time_decay_base (n : ℕ) : List ℚ :=
  (List.range n).map (fun j : ℕ => (n : ℚ) + 1 - (j : ℚ))

/-- The kernel weight vector used in the endogenous term of the loop body
(`models.py:158-161`): elementwise
`tf.pow(time_decay_base(n) + tf.constant(0.01), tile([-1 - theta], [n]))`.
The float literal `0.01` is modelled as the exact rational `1/100`. -/
noncomputable def kernel_weights (theta : ℝ) (n : ℕ) : List ℝ :=
  (time_decay_base n).map (fun b : ℚ => ((b : ℝ) + 1 / 100) ^ (-1 - theta))

/-- Embedding of `tf.reduce_sum(tf.multiply(mu, x[:, i]))` (`models.py:154`):
elementwise product of the weight vector with the i-th exogenous column,
then summed. -/
noncomputable def dotMu (mu xi : List ℝ) : ℝ :=
  (List.zipWith (fun a b => a * b) mu xi).sum

/-- The endogenous (self-excitation) term of the loop body
(`models.py:156-161`): with `ws = max(0, i - MEMORY_WINDOW)` (natural
subtraction), the history window `pred_history[ws:]` is multiplied
elementwise with the kernel weights for `n = i - ws` lags and summed,
then scaled by `C`. -/
noncomputable def endogenous (p : ModelParams) (i : ℕ) (pred_history : List ℝ) : ℝ :=
  p.C * (List.zipWith (fun a b => a * b)
          (pred_history.drop (i - MEMORY_WINDOW))
          (kernel_weights p.theta (i - (i - MEMORY_WINDOW)))).sum

/-- The new prediction appended at step `i`
(`models.py:163-165`): `tf.add_n([bias, exogenous, endogenous])` with
`bias = model_params['eta']`. -/
noncomputable def new_prediction (p : ModelParams) (xcol : ℕ → List ℝ) (i : ℕ)
    (pred_history : List ℝ) : ℝ :=
  p.eta + dotMu p.mu (xcol i) + endogenous p i pred_history

/-- One iteration of the `tf.while_loop` body `loop_body`
(`models.py:153-168`): computes the new prediction from column `i` and the
current history, and appends it (`tf.concat([pred_history, [new]], 0)`). -/
noncomputable def loop_body (p : ModelParams) (xcol : ℕ → List ℝ) (i : ℕ)
    (pred_history : List ℝ) : List ℝ :=
  pred_history ++ [new_prediction p xcol i pred_history]

/-- The state of the `tf.while_loop` of `TensorHIP.predict` after `T`
iterations, starting from the empty prediction history with `i = 0`. -/
noncomputable def predictAux (p : ModelParams) (xcol : ℕ → List ℝ) : ℕ → List ℝ
  | 0 => []
  | T + 1 => loop_body p xcol T (predictAux p xcol T)

/-- Embedding of `TensorHIP.predict` (`models.py:134-178`): the exogenous
matrix `x` is given by its columns `xcol` (`xcol i` models `x[:, i]`) and
its number of columns `T` (`train_size = tf.shape(x)[1]`); the while loop
runs while `i < T`.  The target series is not an input: predictions feed
back only on themselves. -/
noncomputable def predict (T : ℕ) (xcol : ℕ → List ℝ) (p : ModelParams) : List ℝ :=
  predictAux p xcol T

lemma predictAux_length (p : ModelParams) (xcol : ℕ → List ℝ) :
    ∀ T, (predictAux p xcol T).length = T
  | 0 => rfl
  | T + 1 => by
      simp [predictAux, loop_body, predictAux_length p xcol T]

lemma predictAux_get?_stable (p : ModelParams) (xcol : ℕ → List ℝ) (i : ℕ) :
    ∀ T, i < T → (predictAux p xcol T).get? i = (predictAux p xcol (i + 1)).get? i := by
  intro T
  induction T with
  | zero => intro h; exact absurd h (Nat.not_lt_zero i)
  | succ T ih =>
      intro h
      rcases Nat.lt_succ_iff_lt_or_eq.mp h with h' | h'
      · rw [← ih h']
        show (loop_body p xcol T (predictAux p xcol T)).get? i = _
        unfold loop_body
        rw [List.get?_append]
        rw [predictAux_length]
        exact h'
      · subst h'; rfl

lemma predictAux_get?_succ_self (p : ModelParams) (xcol : ℕ → List ℝ) (i : ℕ) :
    (predictAux p xcol (i + 1)).get? i
      = some (new_prediction p xcol i (predictAux p xcol i)) := by
  have h := List.get?_concat_length (predictAux p xcol i)
    (new_prediction p xcol i (predictAux p xcol i))
  rw [predictAux_length p xcol i] at h
  exact h

lemma predictAux_congr (p : ModelParams) (x x' : ℕ → List ℝ) :
    ∀ m, (∀ j, j < m → x j = x' j) → predictAux p x m = predictAux p x' m := by
  intro m
  induction m with
  | zero => intro _; rfl
  | succ m ih =>
      intro h
      have hm := ih (fun j hj => h j (Nat.lt_succ_of_lt hj))
      show loop_body p x m (predictAux p x m) = loop_body p x' m (predictAux p x' m)
      unfold loop_body new_prediction
      rw [hm, h m (Nat.lt_succ_self m)]

/-- C2 (confirmed): for every parameter set and every exogenous input with
at least one time step, the prediction at index 0 is exactly
`eta + dot(mu, exogenous[:, 0])`.  The right-hand side mentions neither
`C` nor `theta` nor `c`, so the value does not depend on them (at `i = 0`
the history window is empty, so the endogenous term is `C * 0 = 0`). -/
theorem predict_index_zero (p : ModelParams) (xcol : ℕ → List ℝ) (T : ℕ)
    (hT : 0 < T) :
    (predict T xcol p).get? 0 = some (p.eta + dotMu p.mu (xcol 0)) := by
  unfold predict
  rw [predictAux_get?_stable p xcol 0 T hT, predictAux_get?_succ_self p xcol 0]
  have : new_prediction p xcol 0 (predictAux p xcol 0)
      = p.eta + dotMu p.mu (xcol 0) := by
    simp [predictAux, new_prediction, endogenous, kernel_weights, time_decay_base]
  rw [this]

/-- Witness for C2: a concrete one-step series.  With `eta = 1`,
`mu = [3]` and first exogenous column `[2]`, the prediction at index 0 is
`1 + 3 * 2`, whatever `theta`, `C` and `c` are. -/
theorem predict_index_zero_witness :
    (predict 1 (fun _ => [(2 : ℝ)]) ⟨1, [3], 5, 7, 9⟩).get? 0
      = some ((1 : ℝ) + dotMu [3] [2]) :=
  predict_index_zero ⟨1, [3], 5, 7, 9⟩ (fun _ => [(2 : ℝ)]) 1 Nat.one_pos

/-- C3 (confirmed): causality of `predict`.  If two exogenous inputs agree
on all columns `j ≤ i` then the predictions at index `i` agree, whatever
the horizons are; in particular modifying any column `j > i` leaves
`predict(...)[i]` unchanged, and `predict` takes no ground-truth input at
all (its arguments are the exogenous columns and the parameters only). -/
theorem predict_causality (p : ModelParams) (x x' : ℕ → List ℝ) (i T T' : ℕ)
    (hx : ∀ j, j ≤ i → x j = x' j) (hT : i < T) (hT' : i < T') :
    (predict T x p).get? i = (predict T' x' p).get? i := by
  unfold predict
  rw [predictAux_get?_stable p x i T hT, predictAux_get?_stable p x' i T' hT',
    predictAux_congr p x x' (i + 1) (fun j hj => hx j (Nat.lt_succ_iff.mp hj))]

/-- Witness for C3: changing the exogenous column at time 1 does not
change the prediction at time 0, even with different horizons. -/
theorem predict_causality_witness :
    (predict 1 (fun _ => [(2 : ℝ)]) ⟨1, [3], 5, 7, 9⟩).get? 0
      = (predict 2 (fun j => if j = 0 then [(2 : ℝ)] else [(99 : ℝ)]) ⟨1, [3], 5, 7, 9⟩).get? 0 := by
  refine predict_causality ⟨1, [3], 5, 7, 9⟩ _ _ 0 1 2 ?_ Nat.one_pos (by norm_num)
  intro j hj
  interval_cases j
  simp

/-- The kernel weight applied to the history value at lag `k` when the
window holds `n` history values.  In the loop body the elementwise product
`endo_history * kernel_weights` pairs position `j` of the history (which
is `pred_history[ws + j]`, i.e. lag `n - j` from the current step) with
position `j` of the weight vector; the lag-`k` value is therefore paired
with weight position `n - k`. -/
noncomputable def kernel_weight_of_lag (theta : ℝ) (n k : ℕ) : ℝ :=
  ((kernel_weights theta n).get? (n - k)).getD 0

/-- C1 counterexample: the claim states that (with `c` unused) the weight
at lag `k` is `(k + 0.01) ^ (-1 - theta)`.  At `theta = 1`, `n = 1`,
`k = 1` the code's weight is `(2 + 0.01) ^ (-2)`, not
`(1 + 0.01) ^ (-2)`: `time_decay_base` counts down only to 2
(`tf.range(i+1, 1, -1)`), so the integer part of the base at lag `k` is
`k + 1`, never `k`. -/
theorem kernel_weight_claim_counterexample :
    kernel_weight_of_lag 1 1 1 ≠ ((1 : ℝ) + 1 / 100) ^ (-1 - (1 : ℝ)) := by
  have hval : kernel_weight_of_lag 1 1 1 = ((2 : ℝ) + 1 / 100) ^ (-1 - (1 : ℝ)) := by
    simp [kernel_weight_of_lag, kernel_weights, time_decay_base, List.range_succ]
    norm_num
  rw [hval]
  have hlt : ((2 : ℝ) + 1 / 100) ^ (-1 - (1 : ℝ))
      < ((1 : ℝ) + 1 / 100) ^ (-1 - (1 : ℝ)) := by
    apply Real.rpow_lt_rpow_of_neg (by norm_num) (by norm_num) (by norm_num)
  exact ne_of_lt hlt

/-- C1 (corrected): in the code the offset added to the kernel base is
always the fixed constant `0.01` (`model_params['c']` is commented out at
`models.py:159`), and the integer base paired with the history value at
lag `k` (1-indexed, `1 ≤ k ≤ n`, `n` = window size) is `k + 1`, because
`time_decay_base n = [n+1, ..., 2]`.  So the weight applied at lag `k` is
`(k + 1 + 0.01) ^ (-1 - theta)`. -/
theorem kernel_weight_at_lag (theta : ℝ) (n k : ℕ) (hk : 1 ≤ k) (hkn : k ≤ n) :
    kernel_weight_of_lag theta n k
      = (((k : ℝ) + 1) + 1 / 100) ^ (-1 - theta) := by
  have hn : n - k < n := Nat.sub_lt (Nat.lt_of_lt_of_le hk hkn) hk
  unfold kernel_weight_of_lag kernel_weights time_decay_base
  rw [List.get?_map, List.get?_map, List.get?_range hn]
  have hcast : ((n : ℚ) + 1 - ((n - k : ℕ) : ℚ)) = (k : ℚ) + 1 := by
    rw [Nat.cast_sub hkn]
    ring
  simp only [Option.map_some', Option.getD_some, hcast]
  norm_num

/-- Witness for C1's corrected statement, at `theta = 0`, `n = 1`,
`k = 1`: the single weight is `(1 + 1 + 0.01) ^ (-1 - 0)`. -/
theorem kernel_weight_at_lag_witness :
    kernel_weight_of_lag 0 1 1 = (((1 : ℝ) + 1) + 1 / 100) ^ (-1 - (0 : ℝ)) := by
  have h := kernel_weight_at_lag 0 1 1 (le_refl 1) (le_refl 1)
  simpa using h

/-! ## Trainer: multi-restart best-of selection (`TensorHIP.train`, `models.py:180-194`)

`train` folds over the restart results.  Validation losses are modelled in
`WithTop ℚ` (`⊤` models `np.inf`, the initial `self.validation_loss`, and
a float comparison `x < ⊤` that is always false when the best-so-far is
itself `⊤`).  Each restart yields a pair (validation loss, fitted
parameters); the parameter payload type is abstract. -/

/-- One iteration of the selection loop in `TensorHIP.train`
(`models.py:190-192`):
`if loss_value < best_validation_loss or best_model_params == None:`
(for a dictionary, `best_model_params == None` is exactly "no parameters
retained yet"). -/
def train_step {P : Type} (acc : WithTop ℚ × Option P) (r : WithTop ℚ × P) :
    WithTop ℚ × Option P :=
  match acc with
  | (_, none) => (r.1, some r.2)
  | (best, some p) => if r.1 < best then (r.1, some r.2) else (best, some p)

/-- The selection loop of `TensorHIP.train` over the list of per-restart
results, starting from `best_validation_loss = self.validation_loss`
(`v0`, `np.inf` on a fresh model) and `best_model_params = None`. -/
def train_select {P : Type} (v0 : WithTop ℚ)
    (results : List (WithTop ℚ × P)) : WithTop ℚ × Option P :=
  results.foldl train_step (v0, none)

/-- Reference recursion for the loop once parameters have been retained:
keep the best-so-far pair, replacing it only on strict improvement. -/
def run_best {P : Type} (q : WithTop ℚ) (p : P) :
    List (WithTop ℚ × P) → WithTop ℚ × P
  | [] => (q, p)
  | r :: rs => if r.1 < q then run_best r.1 r.2 rs else run_best q p rs

lemma foldl_train_step_some {P : Type} :
    ∀ (rs : List (WithTop ℚ × P)) (q : WithTop ℚ) (p : P),
      rs.foldl train_step (q, some p)
        = ((run_best q p rs).1, some (run_best q p rs).2)
  | [], q, p => rfl
  | r :: rs, q, p => by
      show List.foldl train_step (train_step (q, some p) r) rs = _
      show List.foldl train_step (if r.1 < q then (r.1, some r.2) else (q, some p)) rs
        = ((run_best q p (r :: rs)).1, some (run_best q p (r :: rs)).2)
      unfold run_best
      by_cases h : r.1 < q
      · rw [if_pos h, if_pos h, foldl_train_step_some rs r.1 r.2]
      · rw [if_neg h, if_neg h, foldl_train_step_some rs q p]

lemma run_best_first_min {P : Type} :
    ∀ (rs : List (WithTop ℚ × P)) (q : WithTop ℚ) (p : P),
      (run_best q p rs = (q, p) ∧ ∀ r ∈ rs, q ≤ r.1) ∨
      (∃ i, ∃ hi : i < rs.length,
        run_best q p rs = rs[i] ∧ rs[i].1 < q ∧
        (∀ j, ∀ hj : j < rs.length, rs[i].1 ≤ rs[j].1) ∧
        (∀ j, ∀ hj : j < rs.length, j < i → rs[i].1 < rs[j].1))
  | [], q, p => by
      left
      exact ⟨rfl, by simp⟩
  | r :: rs, q, p => by
      simp only [run_best]
      by_cases h : r.1 < q
      · rw [if_pos h]
        right
        rcases run_best_first_min rs r.1 r.2 with ⟨heq, hall⟩ | ⟨i, hi, heq, hlt, hmin, hfirst⟩
        · refine ⟨0, Nat.succ_pos _, by simpa using heq, by simpa using h, ?_, ?_⟩
          · intro j hj
            cases j with
            | zero => simp
            | succ k =>
                have hk : k < rs.length := by simpa using hj
                simpa using hall rs[k] (List.getElem_mem hk)
          · intro j hj hj0
            exact absurd hj0 (Nat.not_lt_zero j)
        · refine ⟨i + 1, Nat.succ_lt_succ hi, by simpa using heq,
            by simpa using lt_trans hlt h, ?_, ?_⟩
          · intro j hj
            cases j with
            | zero => simpa using le_of_lt hlt
            | succ k =>
                have hk : k < rs.length := by simpa using hj
                simpa using hmin k hk
          · intro j hj hji
            cases j with
            | zero => simpa using hlt
            | succ k =>
                have hk : k < rs.length := by simpa using hj
                simpa using hfirst k hk (Nat.lt_of_succ_lt_succ hji)
      · rw [if_neg h]
        have hq : q ≤ r.1 := le_of_not_lt h
        rcases run_best_first_min rs q p with ⟨heq, hall⟩ | ⟨i, hi, heq, hlt, hmin, hfirst⟩
        · left
          refine ⟨heq, ?_⟩
          intro s hs
          rcases List.mem_cons.mp hs with hs | hs
          · rw [hs]; exact hq
          · exact hall s hs
        · right
          refine ⟨i + 1, Nat.succ_lt_succ hi, by simpa using heq, hlt, ?_, ?_⟩
          · intro j hj
            cases j with
            | zero => simpa using le_of_lt (lt_of_lt_of_le hlt hq)
            | succ k =>
                have hk : k < rs.length := by simpa using hj
                simpa using hmin k hk
          · intro j hj hji
            cases j with
            | zero => simpa using lt_of_lt_of_le hlt hq
            | succ k =>
                have hk : k < rs.length := by simpa using hj
                simpa using hfirst k hk (Nat.lt_of_succ_lt_succ hji)

/-- C4 (confirmed): over any non-empty run of restarts (and any initial
`self.validation_loss`, even a stale one: the `best_model_params == None`
guard makes the first restart accepted unconditionally), the retained
parameters are those of a restart whose validation loss is minimal among
all restarts, and on ties the earliest such restart wins, because the
comparison against the best-so-far is strict `<`. -/
theorem train_select_first_min {P : Type} (v0 : WithTop ℚ)
    (results : List (WithTop ℚ × P)) (h : results ≠ []) :
    ∃ i, ∃ hi : i < results.length,
      (train_select v0 results).1 = results[i].1 ∧
      (train_select v0 results).2 = some results[i].2 ∧
      (∀ j, ∀ hj : j < results.length, results[i].1 ≤ results[j].1) ∧
      (∀ j, ∀ hj : j < results.length, j < i → results[i].1 < results[j].1) := by
  match results with
  | [] => exact absurd rfl h
  | r :: rs =>
    have hsel : train_select v0 (r :: rs)
        = ((run_best r.1 r.2 rs).1, some (run_best r.1 r.2 rs).2) := by
      show rs.foldl train_step (train_step (v0, none) r) = _
      show rs.foldl train_step (r.1, some r.2) = _
      exact foldl_train_step_some rs r.1 r.2
    rcases run_best_first_min rs r.1 r.2 with ⟨heq, hall⟩ | ⟨i, hi, heq, hlt, hmin, hfirst⟩
    · refine ⟨0, Nat.succ_pos _, ?_, ?_, ?_, ?_⟩
      · rw [hsel, heq]; simp
      · rw [hsel, heq]; simp
      · intro j hj
        cases j with
        | zero => simp
        | succ k =>
            have hk : k < rs.length := by simpa using hj
            simpa using hall rs[k] (List.getElem_mem hk)
      · intro j hj hj0
        exact absurd hj0 (Nat.not_lt_zero j)
    · refine ⟨i + 1, Nat.succ_lt_succ hi, ?_, ?_, ?_, ?_⟩
      · rw [hsel, heq]; simp
      · rw [hsel, heq]; simp
      · intro j hj
        cases j with
        | zero => simpa using le_of_lt hlt
        | succ k =>
            have hk : k < rs.length := by simpa using hj
            simpa using hmin k hk
      · intro j hj hji
        cases j with
        | zero => simpa using hlt
        | succ k =>
            have hk : k < rs.length := by simpa using hj
            simpa using hfirst k hk (Nat.lt_of_succ_lt_succ hji)

/-- Witness for C4: with synthetic validation losses `[5, 2, 8]` (the
spec's test) the retained parameters are those fitted at loss `2`
(index 1, which is the unique minimum). -/
theorem train_select_first_min_witness :
    ∃ i, ∃ hi : i < ([(((5 : ℚ) : WithTop ℚ), (0 : ℕ)), (((2 : ℚ) : WithTop ℚ), 1),
        (((8 : ℚ) : WithTop ℚ), 2)]).length,
      (train_select ⊤ [(((5 : ℚ) : WithTop ℚ), (0 : ℕ)), (((2 : ℚ) : WithTop ℚ), 1),
          (((8 : ℚ) : WithTop ℚ), 2)]).1
        = ([(((5 : ℚ) : WithTop ℚ), (0 : ℕ)), (((2 : ℚ) : WithTop ℚ), 1),
            (((8 : ℚ) : WithTop ℚ), 2)])[i].1 ∧
      (train_select ⊤ [(((5 : ℚ) : WithTop ℚ), (0 : ℕ)), (((2 : ℚ) : WithTop ℚ), 1),
          (((8 : ℚ) : WithTop ℚ), 2)]).2
        = some ([(((5 : ℚ) : WithTop ℚ), (0 : ℕ)), (((2 : ℚ) : WithTop ℚ), 1),
            (((8 : ℚ) : WithTop ℚ), 2)])[i].2 ∧
      (∀ j, ∀ hj : j < ([(((5 : ℚ) : WithTop ℚ), (0 : ℕ)), (((2 : ℚ) : WithTop ℚ), 1),
          (((8 : ℚ) : WithTop ℚ), 2)]).length,
        ([(((5 : ℚ) : WithTop ℚ), (0 : ℕ)), (((2 : ℚ) : WithTop ℚ), 1),
            (((8 : ℚ) : WithTop ℚ), 2)])[i].1
          ≤ ([(((5 : ℚ) : WithTop ℚ), (0 : ℕ)), (((2 : ℚ) : WithTop ℚ), 1),
            (((8 : ℚ) : WithTop ℚ), 2)])[j].1) ∧
      (∀ j, ∀ hj : j < ([(((5 : ℚ) : WithTop ℚ), (0 : ℕ)), (((2 : ℚ) : WithTop ℚ), 1),
          (((8 : ℚ) : WithTop ℚ), 2)]).length, j < i →
        ([(((5 : ℚ) : WithTop ℚ), (0 : ℕ)), (((2 : ℚ) : WithTop ℚ), 1),
            (((8 : ℚ) : WithTop ℚ), 2)])[i].1
          < ([(((5 : ℚ) : WithTop ℚ), (0 : ℕ)), (((2 : ℚ) : WithTop ℚ), 1),
            (((8 : ℚ) : WithTop ℚ), 2)])[j].1) :=
  train_select_first_min ⊤ _ (List.cons_ne_nil _ _)

/-- C10 (confirmed): after any non-empty run, `best_model_params` is the
fitted parameter set of some restart and never `None`; moreover even when
every restart's validation loss fails the strict `<` comparison (all
losses `⊤`, modelling `inf`/incomparable values), the first restart's
parameters are accepted unconditionally through the
`best_model_params == None` guard and retained. -/
theorem train_select_never_none {P : Type} (v0 : WithTop ℚ)
    (results : List (WithTop ℚ × P)) (h : results ≠ []) :
    (∃ i, ∃ hi : i < results.length,
        (train_select v0 results).2 = some results[i].2) ∧
    ((∀ x ∈ results, x.1 = ⊤) →
      ∃ r0 rs0, results = r0 :: rs0 ∧ (train_select v0 results).2 = some r0.2) := by
  match results with
  | [] => exact absurd rfl h
  | r :: rs =>
    have hsel : train_select v0 (r :: rs)
        = ((run_best r.1 r.2 rs).1, some (run_best r.1 r.2 rs).2) := by
      show rs.foldl train_step (train_step (v0, none) r) = _
      show rs.foldl train_step (r.1, some r.2) = _
      exact foldl_train_step_some rs r.1 r.2
    constructor
    · rcases run_best_first_min rs r.1 r.2 with ⟨heq, _⟩ | ⟨i, hi, heq, _, _, _⟩
      · exact ⟨0, Nat.succ_pos _, by rw [hsel, heq]; simp⟩
      · exact ⟨i + 1, Nat.succ_lt_succ hi, by rw [hsel, heq]; simp⟩
    · intro htop
      refine ⟨r, rs, rfl, ?_⟩
      rw [hsel]
      have hrun : ∀ (rsx : List (WithTop ℚ × P)) (p : P),
          (∀ x ∈ rsx, x.1 = ⊤) → run_best ⊤ p rsx = (⊤, p) := by
        intro rsx
        induction rsx with
        | nil => intro p _; rfl
        | cons s ss ih =>
            intro p hss
            show (if s.1 < ⊤ then run_best s.1 s.2 ss else run_best ⊤ p ss) = (⊤, p)
            rw [hss s (List.mem_cons_self s ss), if_neg (lt_irrefl ⊤),
              ih p (fun x hx => hss x (List.mem_cons_of_mem s hx))]
      have hr1 : r.1 = ⊤ := htop r (List.mem_cons_self r rs)
      rw [hr1, hrun rs r.2 (fun x hx => htop x (List.mem_cons_of_mem r hx))]

/-- Witness for C10: two restarts whose losses are both `⊤` (infinite):
the first restart's parameters are retained. -/
theorem train_select_never_none_witness :
    (∃ i, ∃ hi : i < ([((⊤ : WithTop ℚ), (0 : ℕ)), ((⊤ : WithTop ℚ), 1)]).length,
        (train_select ⊤ [((⊤ : WithTop ℚ), (0 : ℕ)), ((⊤ : WithTop ℚ), 1)]).2
          = some ([((⊤ : WithTop ℚ), (0 : ℕ)), ((⊤ : WithTop ℚ), 1)])[i].2) ∧
    ((∀ x ∈ [((⊤ : WithTop ℚ), (0 : ℕ)), ((⊤ : WithTop ℚ), 1)], x.1 = ⊤) →
      ∃ r0 rs0, [((⊤ : WithTop ℚ), (0 : ℕ)), ((⊤ : WithTop ℚ), 1)] = r0 :: rs0 ∧
        (train_select ⊤ [((⊤ : WithTop ℚ), (0 : ℕ)), ((⊤ : WithTop ℚ), 1)]).2 = some r0.2) :=
  train_select_never_none ⊤ _ (List.cons_ne_nil _ _)

/-! ## Variable construction and per-restart seeding
(`TensorHIP._init_tf_model_variables`, `models.py:274-342`, and the call
site in `TensorHIP._fit`, `models.py:207`). -/

/-- Embedding of `tf.clip_by_value(t, lo, hi)`: `min(max(t, lo), hi)`.
The upper bound is `Option ℚ`, with `none` modelling `np.infty` (as used
in all three constraints of the source). -/
def clip_by_value (t lo : ℚ) (hi : Option ℚ) : ℚ :=
  match hi with
  | none => max t lo
  | some h => min (max t lo) h

/-- A TensorFlow model quantity as created by
`_init_tf_model_variables`: either a `tf.constant` (a fixed parameter,
excluded from optimization) or a `tf.get_variable` with an initial value
and an optional `constraint` projection function. -/
inductive VarSpec (α : Type) where
  | const (value : α)
  | tfvar (init : α) (constraint : Option (ℚ → ℚ))

/-- The five quantities returned by `_init_tf_model_variables`
(`models.py:336-342`).  `mu` is always a `tf.get_variable` (there is no
`fix_mu` option in the source), so it is recorded by its initial vector. -/
structure TFModelVars where
  eta : VarSpec ℚ
  mu_init : List ℚ
  theta : VarSpec ℚ
  C : VarSpec ℚ
  c : VarSpec ℚ

/-- The per-model configuration consumed by `_init_tf_model_variables`:
for each parameter, whether a value is present in `self.model_params`
(`mp_*`) and whether the parameter was fixed at construction
(`fixed_*`), plus the number of exogenous series (the shape of `mu`). -/
structure ParamConfig where
  mp_mu : Option (List ℚ)
  mp_eta : Option ℚ
  fixed_eta : Bool
  mp_theta : Option ℚ
  fixed_theta : Bool
  mp_C : Option ℚ
  fixed_C : Bool
  mp_c : Option ℚ
  fixed_c : Bool
  num_of_exogenous_series : ℕ

/-- Embedding of `TensorHIP._init_tf_model_variables(random_seed)`
(`models.py:274-342`).  The seeded normal sampler is abstracted as a
deterministic stream `g : seed → op → component → ℚ` of standard-normal
draws (TensorFlow resolves each initializer's seed from the graph-level
seed, set to `random_seed` at line 275, at op-creation time; `mu`
additionally receives `seed=random_seed` explicitly).  Each random draw
is `mean + stddev * g seed op j` with the means/stddevs of the source:
`mu ~ N(1,1)`, `eta ~ N(0,0.5)`, `theta ~ N(10,5)`, `C ~ N(3,1)`,
`c ~ N(1,1)`.  Free `theta`, `C`, `c` carry the constraints
`clip_by_value(x, 0.5, np.infty)`, `clip_by_value(x, 0.01, np.infty)` and
`clip_by_value(x, 0, np.infty)` respectively; `eta` and `mu` carry no
constraint; values already present in `model_params` are re-created as
constants when fixed and as unconstrained variables otherwise. -/
def init_model_variables (g : ℕ → ℕ → ℕ → ℚ) (cfg : ParamConfig)
    (random_seed : ℕ) : TFModelVars :=
  ⟨(match cfg.mp_eta with
    | some v => if cfg.fixed_eta then .const v else .tfvar v none
    | none => .tfvar (0 + (1 / 2) * g random_seed 1 0) none),
   (match cfg.mp_mu with
    | some v => v
    | none => (List.range cfg.num_of_exogenous_series).map
        (fun j : ℕ => 1 + 1 * g random_seed 0 j)),
   (match cfg.mp_theta with
    | some v => if cfg.fixed_theta then .const v else .tfvar v none
    | none => .tfvar (10 + 5 * g random_seed 2 0)
        (some (fun x => clip_by_value x (1 / 2) none))),
   (match cfg.mp_C with
    | some v => if cfg.fixed_C then .const v else .tfvar v none
    | none => .tfvar (3 + 1 * g random_seed 3 0)
        (some (fun x => clip_by_value x (1 / 100) none))),
   (match cfg.mp_c with
    | some v => if cfg.fixed_c then .const v else .tfvar v none
    | none => .tfvar (1 + 1 * g random_seed 4 0)
        (some (fun x => clip_by_value x 0 none)))⟩

/-- The seed used by restart number `iteration_number`:
`_fit` calls `self._init_tf_model_variables(random_seed=RANDOM_SEED +
iteration_number)` (`models.py:207`). -/
def fit_seed (iteration_number : ℕ) : ℕ := RANDOM_SEED + iteration_number

/-- Modelled from the spec: the value a variable holds after one
optimizer update step that tried to write the raw value `raw`.  Per the
TensorFlow variable contract assumed by the spec ("violations are
corrected by clipping immediately after each optimizer step"), the
variable's declared `constraint` projection is applied to the raw update;
a `tf.constant` is never updated by the optimizer. -/
def apply_step (v : VarSpec ℚ) (raw : ℚ) : ℚ :=
  match v with
  | .const value => value
  | .tfvar _ none => raw
  | .tfvar _ (some f) => f raw

/-- C5 (confirmed): whenever `theta`, `C` or `c` is a free parameter (it
was not fixed at construction, hence absent from `model_params` when
`_fit` builds the graph), the constraint attached to its variable forces,
after every optimizer update step and however wild the raw step was,
`theta ≥ 0.5`, `C ≥ 0.01` and `c ≥ 0` — by clipping, never by raising an
error (`clip_by_value` is total). -/
theorem constraint_clipping (g : ℕ → ℕ → ℕ → ℚ) (cfg : ParamConfig)
    (seed : ℕ) (raw : ℚ) :
    (cfg.mp_theta = none →
      (1 : ℚ) / 2 ≤ apply_step (init_model_variables g cfg seed).theta raw) ∧
    (cfg.mp_C = none →
      (1 : ℚ) / 100 ≤ apply_step (init_model_variables g cfg seed).C raw) ∧
    (cfg.mp_c = none →
      (0 : ℚ) ≤ apply_step (init_model_variables g cfg seed).c raw) := by
  obtain ⟨mm, me, fe, mt, ft, mC, fC, mc, fc, ne⟩ := cfg
  refine ⟨?_, ?_, ?_⟩
  · intro h
    simp only at h
    subst h
    simp [init_model_variables, apply_step, clip_by_value, le_max_right]
  · intro h
    simp only at h
    subst h
    simp [init_model_variables, apply_step, clip_by_value, le_max_right]
  · intro h
    simp only at h
    subst h
    simp [init_model_variables, apply_step, clip_by_value, le_max_right]

/-- Witness for C5: all of `theta`, `C`, `c` free, a sampler that only
produces `-100`, and a raw optimizer step to `-7`: the post-step values
are still within bounds. -/
theorem constraint_clipping_witness :
    ((1 : ℚ) / 2 ≤ apply_step
      (init_model_variables (fun _ _ _ => -100)
        ⟨none, none, false, none, false, none, false, none, false, 2⟩ 42).theta (-7)) ∧
    ((1 : ℚ) / 100 ≤ apply_step
      (init_model_variables (fun _ _ _ => -100)
        ⟨none, none, false, none, false, none, false, none, false, 2⟩ 42).C (-7)) ∧
    ((0 : ℚ) ≤ apply_step
      (init_model_variables (fun _ _ _ => -100)
        ⟨none, none, false, none, false, none, false, none, false, 2⟩ 42).c (-7)) :=
  ⟨(constraint_clipping (fun _ _ _ => -100)
      ⟨none, none, false, none, false, none, false, none, false, 2⟩ 42 (-7)).1 rfl,
   (constraint_clipping (fun _ _ _ => -100)
      ⟨none, none, false, none, false, none, false, none, false, 2⟩ 42 (-7)).2.1 rfl,
   (constraint_clipping (fun _ _ _ => -100)
      ⟨none, none, false, none, false, none, false, none, false, 2⟩ 42 (-7)).2.2 rfl⟩

/-- C6 (confirmed): restart `r` seeds its random draws with
`RANDOM_SEED + r`; the initialization of one restart is a pure function
of the sampler, the configuration and the restart index (so two runs of
the same restart with identical configuration produce identical values);
and distinct restart indices use distinct seeds. -/
theorem restart_seeding :
    (∀ r : ℕ, fit_seed r = RANDOM_SEED + r) ∧
    (∀ (g : ℕ → ℕ → ℕ → ℚ) (cfg : ParamConfig) (r : ℕ),
      init_model_variables g cfg (fit_seed r)
        = init_model_variables g cfg (fit_seed r)) ∧
    (∀ r s : ℕ, r ≠ s → fit_seed r ≠ fit_seed s) := by
  refine ⟨fun r => rfl, fun g cfg r => rfl, ?_⟩
  intro r s hrs h
  exact hrs (Nat.add_left_cancel h)

/-- Witness for C6: restarts 0 and 1 are distinct, so their seeds 42 and
43 are distinct. -/
theorem restart_seeding_witness : fit_seed 0 ≠ fit_seed 1 :=
  restart_seeding.2.2 0 1 (by decide)

/-! ## Evaluator RMSE (`get_validation_rmse`, `models.py:380-391`, and
`get_test_rmse`, `models.py:393-403`).

Both methods accumulate, per series `i`,
`error += np.sum(y_pred - y_truth) ** 2 / len(y_truth)` over the sliced
range, and return `np.sqrt(error / len(predictions))`.  The Python slice
`a[lo:hi]` is `drop lo` then `take (hi - lo)`; `a[lo:]` is `drop lo`. -/

/-- The error accumulator of `get_validation_rmse` (`models.py:385-389`)
over the validation range `[num_cv_train, num_train)`. -/
def validation_error_sum (predictions y : List (List ℚ))
    (num_cv_train num_train : ℕ) : ℚ :=
  (List.range predictions.length).foldl
    (fun error i => error +
      (List.zipWith (fun a b => a - b)
          (((predictions.getD i []).drop num_cv_train).take (num_train - num_cv_train))
          (((y.getD i []).drop num_cv_train).take (num_train - num_cv_train))).sum ^ 2
        / (((((y.getD i []).drop num_cv_train).take (num_train - num_cv_train)).length : ℚ)))
    0

/-- Embedding of `get_validation_rmse`: `np.sqrt(error / len(predictions))`. -/
noncomputable def get_validation_rmse (predictions y : List (List ℚ))
    (num_cv_train num_train : ℕ) : ℝ :=
  Real.sqrt (((validation_error_sum predictions y num_cv_train num_train
      / (predictions.length : ℚ) : ℚ) : ℝ))

/-- The error accumulator of `get_test_rmse` (`models.py:397-401`)
over the test range `[num_train, ∞)`. -/
def test_error_sum (predictions y : List (List ℚ)) (num_train : ℕ) : ℚ :=
  (List.range predictions.length).foldl
    (fun error i => error +
      (List.zipWith (fun a b => a - b)
          ((predictions.getD i []).drop num_train)
          ((y.getD i []).drop num_train)).sum ^ 2
        / ((((y.getD i []).drop num_train).length : ℚ)))
    0

/-- Embedding of `get_test_rmse`: `np.sqrt(error / len(predictions))`. -/
noncomputable def get_test_rmse (predictions y : List (List ℚ))
    (num_train : ℕ) : ℝ :=
  Real.sqrt (((test_error_sum predictions y num_train
      / (predictions.length : ℚ) : ℚ) : ℝ))

lemma foldl_add_eq_sum_map (f : ℕ → ℚ) :
    ∀ (l : List ℕ) (init : ℚ),
      l.foldl (fun acc i => acc + f i) init = init + (l.map f).sum
  | [], init => by simp
  | i :: is, init => by
      simp only [List.foldl_cons, List.map_cons, List.sum_cons]
      rw [foldl_add_eq_sum_map f is (init + f i)]
      ring

/-- C7 (confirmed): both RMSE evaluators compute, per series, the
contribution `(sum of residuals over the range) ^ 2 / n` — the residuals
are summed FIRST and that single sum is then squared and divided by the
range length — and the reported value is the square root of the average
of these contributions over all series. -/
theorem rmse_formula (predictions y : List (List ℚ)) (a b : ℕ) :
    get_validation_rmse predictions y a b
      = Real.sqrt (((((List.range predictions.length).map (fun i =>
          (List.zipWith (fun p t => p - t)
              (((predictions.getD i []).drop a).take (b - a))
              (((y.getD i []).drop a).take (b - a))).sum ^ 2
            / (((((y.getD i []).drop a).take (b - a)).length : ℚ)))).sum
          / (predictions.length : ℚ) : ℚ) : ℝ)) ∧
    get_test_rmse predictions y a
      = Real.sqrt (((((List.range predictions.length).map (fun i =>
          (List.zipWith (fun p t => p - t)
              ((predictions.getD i []).drop a)
              ((y.getD i []).drop a)).sum ^ 2
            / ((((y.getD i []).drop a).length : ℚ)))).sum
          / (predictions.length : ℚ) : ℚ) : ℝ)) := by
  constructor
  · unfold get_validation_rmse validation_error_sum
    rw [foldl_add_eq_sum_map, zero_add]
  · unfold get_test_rmse test_error_sum
    rw [foldl_add_eq_sum_map, zero_add]

/-! ## Early stopping of the iterative optimizer.

The L-BFGS path present in `src/hip/models.py` has no early-stopping
check (`previous_loss` at `models.py:219` is set to `np.inf` and never
read; `ScipyOptimizerInterface` only gets `maxiter`).  The iterative
first-order optimizer variant the claim describes is repository code not
included under `src/`; its stopping rule is modelled from the spec. -/

/-- The default tolerance of the early-stopping check (spec §4.3). -/
def DEFAULT_LOSS_TOL : ℚ := 1 / 1000

/-- Modelled from the spec: the early-stopping decision of the iterative
first-order optimizer.  It stops when the relative change
`|prevLoss - currLoss| / min(prevLoss, currLoss)` falls below the
tolerance; when either loss is (nearly) zero the division is guarded
explicitly, treating the step as "no improvement" (so the stop fires)
instead of raising a division error. -/
def early_stop (prevLoss currLoss tol : ℚ) : Bool :=
  if min prevLoss currLoss = 0 then true
  else decide (|prevLoss - currLoss| / min prevLoss currLoss < tol)

/-- C8 (confirmed, spec-modelled): the early-stopping decision fires
exactly when the relative loss change is below the tolerance — stated
division-free for positive losses — and the zero-loss case is guarded:
it is treated as no improvement (stop), never a division error
(`early_stop` is a total function). -/
theorem early_stop_guarded (prev curr tol : ℚ) :
    (min prev curr = 0 → early_stop prev curr tol = true) ∧
    (0 < min prev curr →
      (early_stop prev curr tol = true ↔ |prev - curr| < tol * min prev curr)) := by
  constructor
  · intro h
    unfold early_stop
    rw [if_pos h]
  · intro h
    unfold early_stop
    rw [if_neg (ne_of_gt h)]
    rw [decide_eq_true_iff]
    rw [div_lt_iff h]

/-- Witness for C8: at `prevLoss = 0` the guard fires (no division), and
at `prevLoss = currLoss = 1` the check is the division-free comparison
with the default tolerance. -/
theorem early_stop_guarded_witness :
    early_stop 0 5 DEFAULT_LOSS_TOL = true ∧
    (early_stop 1 1 DEFAULT_LOSS_TOL = true
      ↔ |(1 : ℚ) - 1| < DEFAULT_LOSS_TOL * min (1 : ℚ) 1) :=
  ⟨(early_stop_guarded 0 5 DEFAULT_LOSS_TOL).1 (by norm_num),
   (early_stop_guarded 1 1 DEFAULT_LOSS_TOL).2 (by norm_num)⟩

/-! ## Construction (`TensorHIP.__init__`, `models.py:21-114`): the
shape-relevant spine.

The constructor converts `xs` and `ys` with `np.asarray(...).astype(float)`
(which fails only on ragged nested lists), reads the number of exogenous
series from `xs[0]` (or substitutes a zero block when `xs` is empty),
reads the series length from `ys[0]`, and derives the split indices with
`int(...)` truncation.  Scaling (`scale_series=False` path modelled; the
scaler lives in `hip/utils.py`, outside the core and irrelevant to
shapes) and the parameter fixed/free bookkeeping are handled by
`ParamConfig` above.  Crucially, NOTHING compares the time-length of
`xs` with the length of `ys`. -/

/-- Whether every entry of a list of naturals equals the first one. -/
def allEqNat (l : List ℕ) : Bool :=
  match l with
  | [] => true
  | a :: as => as.all (fun b => b == a)

/-- Whether `np.asarray(m).astype(float)` succeeds for a 2-level nested
list: all rows must have equal length. -/
def asarray2_ok (m : List (List ℚ)) : Bool :=
  allEqNat (m.map List.length)

/-- Whether `np.asarray(t).astype(float)` succeeds for a 3-level nested
list: all series must have the same number of rows, and all rows overall
the same length. -/
def asarray3_ok (t : List (List (List ℚ))) : Bool :=
  allEqNat (t.map List.length) && allEqNat (t.join.map List.length)

/-- Python `int(q)`: truncation toward zero. -/
def py_int (q : ℚ) : ℤ :=
  if q < 0 then -(Int.floor (-q)) else Int.floor q

/-- The index bookkeeping computed by `TensorHIP.__init__`
(lines 40, 52/58, 59, 61-64). -/
structure InitConfig where
  num_of_series : ℕ
  num_of_exogenous_series : ℕ
  series_length : ℕ
  num_train : ℤ
  num_cv_train : ℤ
  num_cv_test : ℤ
  num_test : ℤ
deriving DecidableEq

/-- Embedding of the shape-relevant spine of `TensorHIP.__init__`
(`models.py:40-64`): the only operations that can raise before
optimization are the two `np.asarray(...).astype(float)` conversions
(ragged input) and the `self.y[0]` access (empty `ys`); everything else
is arithmetic on the target length.  No check relates the exogenous
time axis to the target length. -/
def TensorHIP_init (xs : List (List (List ℚ))) (ys : List (List ℚ))
    (train_split_size : ℚ) : Except String InitConfig :=
  if ¬ asarray3_ok xs then .error "could not convert xs to a float array"
  else if ¬ asarray2_ok ys then .error "could not convert ys to a float array"
  else
    let num_of_series := ys.length
    let num_of_exogenous_series := if 0 < xs.length then (xs.getD 0 []).length else 0
    if ys.length = 0 then .error "index 0 is out of bounds for axis 0"
    else
      let series_length := (ys.getD 0 []).length
      let num_train := py_int ((series_length : ℚ) * train_split_size)
      let num_cv_train := py_int ((num_train : ℚ) * (8 / 10))
      .ok ⟨num_of_series, num_of_exogenous_series, series_length,
        num_train, num_cv_train, num_train - num_cv_train,
        (series_length : ℤ) - num_train⟩

/-- C9 counterexample: a well-formed but misaligned input — one series
whose exogenous matrix has 3 time steps while its target has 2 —
is ACCEPTED by construction (no shape-mismatch error is raised; the
split indices are derived from the target length alone), refuting the
claim that construction fails fast on misaligned time axes. -/
theorem init_accepts_misaligned :
    (∃ cfg, TensorHIP_init [[[1, 2, 3]]] [[1, 2]] (19 / 20) = Except.ok cfg
        ∧ cfg.series_length = 2 ∧ cfg.num_of_series = 1) ∧
    (([[[(1 : ℚ), 2, 3]]].getD 0 []).getD 0 []).length
      ≠ ([[(1 : ℚ), 2]].getD 0 []).length := by
  constructor
  · unfold TensorHIP_init
    rw [if_neg (by decide), if_neg (by decide), if_neg (by decide)]
    exact ⟨_, rfl, rfl, rfl⟩
  · decide

/-- C9 (corrected): `TensorHIP.__init__` performs no alignment check
between the exogenous matrix and the target: for every rectangular
(asarray-convertible) input with at least one target series, construction
succeeds — whatever the exogenous time-length is — and derives the split
indices solely from the length of the first target series.  Misalignment
surfaces (if at all) only later, during fitting. -/
theorem init_no_alignment_check (xs : List (List (List ℚ)))
    (ys : List (List ℚ)) (s : ℚ)
    (hx : asarray3_ok xs = true) (hy : asarray2_ok ys = true)
    (hn : ys ≠ []) :
    ∃ cfg, TensorHIP_init xs ys s = Except.ok cfg ∧
      cfg.series_length = (ys.getD 0 []).length := by
  unfold TensorHIP_init
  rw [if_neg (by rw [hx]; exact fun h => h rfl),
    if_neg (by rw [hy]; exact fun h => h rfl),
    if_neg (fun h => hn (List.length_eq_zero.mp h))]
  exact ⟨_, rfl, rfl⟩

/-- Witness for C9's corrected statement, at the misaligned input of the
counterexample: construction succeeds with `series_length = 2`. -/
theorem init_no_alignment_check_witness :
    ∃ cfg, TensorHIP_init [[[1, 2, 3]]] [[1, 2]] (19 / 20) = Except.ok cfg ∧
      cfg.series_length = ([[(1 : ℚ), 2]].getD 0 []).length :=
  init_no_alignment_check [[[1, 2, 3]]] [[1, 2]] (19 / 20)
    (by decide) (by decide) (by decide)

end HIP
